import Mathlib

/-
Shallow embedding of the book-catalog CRUD service:
  - namespace ApiFast   embeds src/api_fast.py (endpoints over the sqlite table
    `livros`, modelled as an explicit list of rows plus the AUTOINCREMENT
    sequence counter);
  - namespace DatabasePy embeds src/database.py (the `Database` class; its rows
    are dynamically typed sqlite values, as the class places caller-supplied
    values into columns).
Machine-level sqlite behaviour that the claims depend on and that is modelled
explicitly: `AUTOINCREMENT` ids come from the `sqlite_sequence` counter (strictly
larger than every id ever assigned, never reused); `cursor.rowcount` after an
UPDATE counts the rows matched by the WHERE clause; `sqlite3.Row.__getitem__`
with a key that names no column raises (modelled as a crash outcome).
-/

namespace ApiFast

/-- One row of the `livros` table as created by api_fast.py: `disponivel` is
stored as the INTEGER 0/1 the endpoint writes (`1 if livro.disponivel else 0`),
`ano_publicacao` is nullable. -/
structure Row where
  id : Nat
  titulo : String
  autor : String
  ano_publicacao : Option Int
  disponivel : Int
deriving DecidableEq

/-- The database state: the rows of `livros` in insertion (rowid) order, plus
the `sqlite_sequence` counter that AUTOINCREMENT uses (the largest id ever
assigned; the next insert gets `seq + 1`). -/
structure DB where
  rows : List Row
  seq : Nat
deriving DecidableEq

/-- The JSON book record returned by the endpoints (the dict built by
`livro_from_row`). -/
structure Livro where
  id : Nat
  titulo : String
  autor : String
  ano_publicacao : Option Int
  disponivel : Bool
deriving DecidableEq

/-- The `LivroCreate` request body (validated by pydantic before the endpoint
body runs; `disponivel` defaults to true at that layer). -/
structure LivroCreate where
  titulo : String
  autor : String
  ano_publicacao : Option Int
  disponivel : Bool
deriving DecidableEq

/-- The `LivroUpdate` request body: every field optional, `none` meaning the
caller omitted it. -/
structure LivroUpdate where
  titulo : Option String
  autor : Option String
  ano_publicacao : Option Int
  disponivel : Option Bool
deriving DecidableEq

/-- Outcome of an endpoint call: a 2xx result, HTTPException 404, HTTPException
400, or an unhandled Python exception (500). -/
inductive Outcome (α : Type) where
  | ok : α → Outcome α
  | notFound : Outcome α
  | badRequest : Outcome α
  | crash : Outcome α
deriving DecidableEq

/-- `livro_from_row` (api_fast.py lines 80-88): converts a row to the response
dict; `bool(row["disponivel"])` coerces the stored 0/1 integer to a boolean. -/
def livro_from_row (row : Row) : Livro :=
  { id := row.id
    titulo := row.titulo
    autor := row.autor
    ano_publicacao := row.ano_publicacao
    disponivel := row.disponivel != 0 }

/-- `SELECT * FROM livros WHERE id = ?` + `fetchone()`: the first row in table
order whose id matches. -/
def findRow (db : DB) (i : Nat) : Option Row :=
  db.rows.find? (fun r => r.id == i)

/-- `criar_tabela` (api_fast.py lines 17-29) on a fresh database file: an empty
table, with the AUTOINCREMENT sequence at 0 so the first insert gets id 1. -/
def criar_tabela : DB := { rows := [], seq := 0 }

/-- Insert a row into the tail of the table, drawing the id from the
AUTOINCREMENT sequence. -/
def insertRow (db : DB) (titulo autor : String) (ano : Option Int)
    (disponivel : Int) : DB :=
  { rows := db.rows ++ [{ id := db.seq + 1, titulo := titulo, autor := autor,
                          ano_publicacao := ano, disponivel := disponivel }]
    seq := db.seq + 1 }

/-- `obter_livro` (api_fast.py lines 117-130): fetch by id, 404 when absent. -/
def obter_livro (db : DB) (i : Nat) : Outcome Livro :=
  match findRow db i with
  | none => .notFound
  | some row => .ok (livro_from_row row)

/-- `criar_livro` (api_fast.py lines 132-153): INSERT the validated fields
(`1 if livro.disponivel else 0` for the flag), then re-read the new row by
`lastrowid` and return it; a failed re-read would crash `livro_from_row`. -/
def criar_livro (db : DB) (livro : LivroCreate) : Outcome Livro × DB :=
  let db2 := insertRow db livro.titulo livro.autor livro.ano_publicacao
      (if livro.disponivel then 1 else 0)
  match findRow db2 (db.seq + 1) with
  | some row => (.ok (livro_from_row row), db2)
  | none => (.crash, db2)

/-- Whether `atualizar_livro` collects at least one `campos` entry: exactly when
some field of the update body is not None. -/
def hasFields (u : LivroUpdate) : Bool :=
  u.titulo.isSome || u.autor.isSome || u.ano_publicacao.isSome ||
    u.disponivel.isSome

/-- The effect of the dynamically built `UPDATE livros SET ... WHERE id = ?` on
one matching row: each supplied field overwrites its column (the boolean again
stored as 0/1), omitted fields leave their columns alone. -/
def applyUpdate (u : LivroUpdate) (r : Row) : Row :=
  let r1 := match u.titulo with
    | some t => { r with titulo := t }
    | none => r
  let r2 := match u.autor with
    | some a => { r1 with autor := a }
    | none => r1
  let r3 := match u.ano_publicacao with
    | some n => { r2 with ano_publicacao := some n }
    | none => r2
  match u.disponivel with
  | some d => { r3 with disponivel := if d then 1 else 0 }
  | none => r3

/-- `atualizar_livro` (api_fast.py lines 155-207): first a SELECT existence
check (404 when absent), then the `campos` list is built from the non-None
fields (400 when empty), then the UPDATE runs on the rows matching the id and
the row is re-read and returned. -/
def atualizar_livro (db : DB) (i : Nat) (u : LivroUpdate) :
    Outcome Livro × DB :=
  match findRow db i with
  | none => (.notFound, db)
  | some _ =>
    if hasFields u then
      let db2 : DB :=
        { db with rows :=
            db.rows.map (fun r => if r.id == i then applyUpdate u r else r) }
      match findRow db2 i with
      | some row => (.ok (livro_from_row row), db2)
      | none => (.crash, db2)
    else
      (.badRequest, db)

/-- `excluir_livro` (api_fast.py lines 209-225): SELECT existence check (404
when absent), then `DELETE FROM livros WHERE id = ?` and a 204 with no body. -/
def excluir_livro (db : DB) (i : Nat) : Outcome Unit × DB :=
  match findRow db i with
  | none => (.notFound, db)
  | some _ =>
    (.ok (), { db with rows := db.rows.filter (fun r => !(r.id == i)) })

/-- Insert a row into a list sorted by ascending id. -/
def insertById (r : Row) : List Row → List Row
  | [] => [r]
  | x :: xs => if r.id ≤ x.id then r :: x :: xs else x :: insertById r xs

/-- `ORDER BY id`: the rows sorted by ascending id. -/
def sortById (rows : List Row) : List Row := rows.foldr insertById []

/-- `listar_livros` (api_fast.py lines 109-115): every row, ordered by id,
through `livro_from_row`. -/
def listar_livros (db : DB) : List Livro :=
  (sortById db.rows).map livro_from_row

/-- `sqlite3.Row.__getitem__` by column name: `none` models the IndexError
raised when no column has that name. -/
def rowLookup (cols : List (String × Int)) (key : String) : Option Int :=
  (cols.find? (fun c => c.1 == key)).map (fun c => c.2)

/-- The filename bound to `DATABASE`. -/
def DATABASE : String := "biblioteca.db"

/-- The JSON object returned by the `/status` endpoint. -/
structure StatusInfo where
  biblioteca : String
  total_livros : Int
  livros_disponiveis : Int
  livros_indisponiveis : Int
  livros_recentes : List Livro
deriving DecidableEq

/-- `status_biblioteca` (api_fast.py lines 254-277): three COUNT queries, each
fetched as a one-column row named by its alias, then the five most recent
books. Line 265 reads the third row with key "disponiveis" although its only
column is aliased "indisponiveis". -/
def status_biblioteca (db : DB) : Outcome StatusInfo :=
  let totalRow : List (String × Int) := [("total", (db.rows.length : Int))]
  match rowLookup totalRow "total" with
  | none => .crash
  | some total =>
    let dispRow : List (String × Int) :=
      [("disponiveis", (db.rows.countP (fun r => r.disponivel == 1) : Int))]
    match rowLookup dispRow "disponiveis" with
    | none => .crash
    | some disponiveis =>
      let indispRow : List (String × Int) :=
        [("indisponiveis", (db.rows.countP (fun r => r.disponivel == 0) : Int))]
      match rowLookup indispRow "disponiveis" with
      | none => .crash
      | some indisponiveis =>
        let recentes := ((sortById db.rows).reverse.take 5).map livro_from_row
        .ok { biblioteca := DATABASE
              total_livros := total
              livros_disponiveis := disponiveis
              livros_indisponiveis := indisponiveis
              livros_recentes := recentes }

/-- One external mutating call, for reasoning about operation sequences. -/
inductive Op where
  | create : LivroCreate → Op
  | update : Nat → LivroUpdate → Op
  | delete : Nat → Op
deriving DecidableEq

/-- The state after one endpoint call. -/
def step (db : DB) : Op → DB
  | .create l => (criar_livro db l).2
  | .update i u => (atualizar_livro db i u).2
  | .delete i => (excluir_livro db i).2

/-- The state after a sequence of endpoint calls. -/
def run (db : DB) (ops : List Op) : DB := ops.foldl step db

/-- Reachability invariant: every row id has been drawn from the sequence
counter, so it is at most `seq`. -/
def Inv (db : DB) : Prop := ∀ r ∈ db.rows, r.id ≤ db.seq

theorem applyUpdate_id (u : LivroUpdate) (r : Row) :
    (applyUpdate u r).id = r.id := by
  unfold applyUpdate
  cases u.titulo <;> cases u.autor <;> cases u.ano_publicacao <;>
    cases u.disponivel <;> rfl

theorem applyUpdate_titulo_none (u : LivroUpdate) (r : Row)
    (h : u.titulo = none) : (applyUpdate u r).titulo = r.titulo := by
  unfold applyUpdate
  rw [h]
  cases u.autor <;> cases u.ano_publicacao <;> cases u.disponivel <;> rfl

theorem applyUpdate_autor_none (u : LivroUpdate) (r : Row)
    (h : u.autor = none) : (applyUpdate u r).autor = r.autor := by
  unfold applyUpdate
  rw [h]
  cases u.titulo <;> cases u.ano_publicacao <;> cases u.disponivel <;> rfl

theorem applyUpdate_ano_none (u : LivroUpdate) (r : Row)
    (h : u.ano_publicacao = none) :
    (applyUpdate u r).ano_publicacao = r.ano_publicacao := by
  unfold applyUpdate
  rw [h]
  cases u.titulo <;> cases u.autor <;> cases u.disponivel <;> rfl

theorem applyUpdate_disponivel_none (u : LivroUpdate) (r : Row)
    (h : u.disponivel = none) :
    (applyUpdate u r).disponivel = r.disponivel := by
  unfold applyUpdate
  rw [h]
  cases u.titulo <;> cases u.autor <;> cases u.ano_publicacao <;> rfl

theorem applyUpdate_titulo_some (u : LivroUpdate) (r : Row) (t : String)
    (h : u.titulo = some t) : (applyUpdate u r).titulo = t := by
  unfold applyUpdate
  rw [h]
  cases u.autor <;> cases u.ano_publicacao <;> cases u.disponivel <;> rfl

theorem applyUpdate_autor_some (u : LivroUpdate) (r : Row) (a : String)
    (h : u.autor = some a) : (applyUpdate u r).autor = a := by
  unfold applyUpdate
  rw [h]
  cases u.titulo <;> cases u.ano_publicacao <;> cases u.disponivel <;> rfl

theorem applyUpdate_ano_some (u : LivroUpdate) (r : Row) (n : Int)
    (h : u.ano_publicacao = some n) :
    (applyUpdate u r).ano_publicacao = some n := by
  unfold applyUpdate
  rw [h]
  cases u.titulo <;> cases u.autor <;> cases u.disponivel <;> rfl

theorem applyUpdate_disponivel_some (u : LivroUpdate) (r : Row) (d : Bool)
    (h : u.disponivel = some d) :
    (applyUpdate u r).disponivel = if d then 1 else 0 := by
  unfold applyUpdate
  rw [h]

theorem find?_map_congr {α : Type} (p : α → Bool) (g : α → α)
    (h : ∀ x, p (g x) = p x) (l : List α) :
    (l.map g).find? p = (l.find? p).map g := by
  induction l with
  | nil => rfl
  | cons x xs ih =>
    by_cases hx : p x = true
    · rw [List.map_cons, List.find?_cons_of_pos _ (by rw [h x]; exact hx),
        List.find?_cons_of_pos _ hx]
      rfl
    · rw [List.map_cons, List.find?_cons_of_neg _ (by rw [h x]; exact hx),
        List.find?_cons_of_neg _ hx, ih]

theorem find?_filter_not {α : Type} (p : α → Bool) (l : List α) :
    (l.filter (fun x => !(p x))).find? p = none := by
  rw [List.find?_eq_none]
  intro x hx
  have hpx := (List.mem_filter.mp hx).2
  simp at hpx
  simp [hpx]

theorem updRowId_pred (i j : Nat) (u : LivroUpdate) (x : Row) :
    ((if x.id == i then applyUpdate u x else x).id == j) = (x.id == j) := by
  by_cases hx : x.id = i
  · simp [hx, applyUpdate_id]
  · simp [hx]

theorem findRow_atualizar_map (db : DB) (i : Nat) (u : LivroUpdate) (r : Row)
    (hr : findRow db i = some r) :
    findRow
      { db with rows :=
          db.rows.map (fun x => if x.id == i then applyUpdate u x else x) } i
      = some (applyUpdate u r) := by
  unfold findRow at hr ⊢
  rw [find?_map_congr _ _ (updRowId_pred i i u), hr]
  have hpr : (r.id == i) = true := List.find?_some (p := fun x : Row => x.id == i) hr
  have hrid : r.id = i := by simpa using hpr
  simp [hrid]

theorem findRow_atualizar_frame (db : DB) (i j : Nat) (u : LivroUpdate)
    (hij : j ≠ i) :
    findRow
      { db with rows :=
          db.rows.map (fun x => if x.id == i then applyUpdate u x else x) } j
      = findRow db j := by
  unfold findRow
  rw [find?_map_congr _ _ (updRowId_pred i j u)]
  cases hr : db.rows.find? (fun x => x.id == j) with
  | none => rfl
  | some r =>
    have hpr : (r.id == j) = true := List.find?_some (p := fun x : Row => x.id == j) hr
    have hrj : r.id = j := by simpa using hpr
    simp [hrj, hij]

theorem findRow_filter_self (db : DB) (i : Nat) :
    findRow { db with rows := db.rows.filter (fun r => !(r.id == i)) } i
      = none := by
  unfold findRow
  exact find?_filter_not _ _

theorem find?_filter_ne (i j : Nat) (hij : j ≠ i) (l : List Row) :
    (l.filter (fun r => !(r.id == i))).find? (fun r => r.id == j)
      = l.find? (fun r => r.id == j) := by
  induction l with
  | nil => rfl
  | cons x xs ih =>
    by_cases hxi : x.id = i
    · have hxj : ¬ (x.id == j) = true := by simp [hxi]; omega
      rw [List.filter_cons_of_neg (by simp [hxi]),
        List.find?_cons_of_neg (p := fun r : Row => r.id == j) _ hxj, ih]
    · rw [List.filter_cons_of_pos (by simp [hxi])]
      by_cases hxj : (x.id == j) = true
      · rw [List.find?_cons_of_pos (p := fun r : Row => r.id == j) _ hxj,
          List.find?_cons_of_pos (p := fun r : Row => r.id == j) _ hxj]
      · rw [List.find?_cons_of_neg (p := fun r : Row => r.id == j) _ hxj,
          List.find?_cons_of_neg (p := fun r : Row => r.id == j) _ hxj, ih]

theorem findRow_filter_frame (db : DB) (i j : Nat) (hij : j ≠ i) :
    findRow { db with rows := db.rows.filter (fun r => !(r.id == i)) } j
      = findRow db j := by
  unfold findRow
  exact find?_filter_ne i j hij db.rows

theorem updRow_id (i : Nat) (u : LivroUpdate) (x : Row) :
    (if x.id == i then applyUpdate u x else x).id = x.id := by
  by_cases hx : (x.id == i) = true
  · simp [hx, applyUpdate_id]
  · simp [hx]

theorem atualizar_of_notFound (db : DB) (i : Nat) (u : LivroUpdate)
    (h : findRow db i = none) : atualizar_livro db i u = (.notFound, db) := by
  unfold atualizar_livro
  rw [h]

theorem atualizar_of_empty (db : DB) (i : Nat) (u : LivroUpdate) (r : Row)
    (hr : findRow db i = some r) (hf : hasFields u = false) :
    atualizar_livro db i u = (.badRequest, db) := by
  unfold atualizar_livro
  rw [hr]
  simp [hf]

theorem atualizar_of_found (db : DB) (i : Nat) (u : LivroUpdate) (r : Row)
    (hr : findRow db i = some r) (hf : hasFields u = true) :
    atualizar_livro db i u =
      (.ok (livro_from_row (applyUpdate u r)),
       { db with rows :=
           db.rows.map (fun x => if x.id == i then applyUpdate u x else x) }) := by
  unfold atualizar_livro
  rw [hr]
  simp only [hf, if_true]
  rw [findRow_atualizar_map db i u r hr]

theorem excluir_of_notFound (db : DB) (i : Nat)
    (h : findRow db i = none) : excluir_livro db i = (.notFound, db) := by
  unfold excluir_livro
  rw [h]

theorem excluir_of_found (db : DB) (i : Nat) (r : Row)
    (hr : findRow db i = some r) :
    excluir_livro db i =
      (.ok (), { db with rows := db.rows.filter (fun x => !(x.id == i)) }) := by
  unfold excluir_livro
  rw [hr]

theorem criar_state (db : DB) (l : LivroCreate) :
    (criar_livro db l).2 =
      insertRow db l.titulo l.autor l.ano_publicacao
        (if l.disponivel then 1 else 0) := by
  unfold criar_livro
  dsimp only
  split <;> rfl

theorem criar_seq (db : DB) (l : LivroCreate) :
    (criar_livro db l).2.seq = db.seq + 1 := by
  rw [criar_state]
  rfl

theorem atualizar_seq (db : DB) (i : Nat) (u : LivroUpdate) :
    (atualizar_livro db i u).2.seq = db.seq := by
  unfold atualizar_livro
  split
  · rfl
  · split
    · dsimp only
      split <;> rfl
    · rfl

theorem excluir_seq (db : DB) (i : Nat) :
    (excluir_livro db i).2.seq = db.seq := by
  unfold excluir_livro
  split <;> rfl

theorem findRow_insert_new (db : DB) (hdb : Inv db) (t a : String)
    (y : Option Int) (d : Int) :
    findRow (insertRow db t a y d) (db.seq + 1)
      = some { id := db.seq + 1, titulo := t, autor := a,
               ano_publicacao := y, disponivel := d } := by
  unfold findRow insertRow
  rw [List.find?_append]
  have h1 : db.rows.find? (fun r => r.id == db.seq + 1) = none := by
    rw [List.find?_eq_none]
    intro x hx
    have := hdb x hx
    simp only [beq_iff_eq]
    omega
  rw [h1]
  simp [List.find?]

theorem criar_of_inv (db : DB) (l : LivroCreate) (hdb : Inv db) :
    criar_livro db l =
      (.ok { id := db.seq + 1, titulo := l.titulo, autor := l.autor,
             ano_publicacao := l.ano_publicacao, disponivel := l.disponivel },
       insertRow db l.titulo l.autor l.ano_publicacao
         (if l.disponivel then 1 else 0)) := by
  unfold criar_livro
  dsimp only
  rw [findRow_insert_new db hdb]
  cases hd : l.disponivel <;> simp [livro_from_row, hd]

theorem Inv_criar_tabela : Inv criar_tabela := by
  intro r hr
  simp [criar_tabela] at hr

theorem Inv_insertRow (db : DB) (hdb : Inv db) (t a : String) (y : Option Int)
    (d : Int) : Inv (insertRow db t a y d) := by
  intro r hr
  simp only [insertRow] at hr ⊢
  rcases List.mem_append.mp hr with h | h
  · exact le_trans (hdb r h) (Nat.le_succ _)
  · simp at h
    subst h
    simp

theorem Inv_step (db : DB) (op : Op) (hdb : Inv db) : Inv (step db op) := by
  cases op with
  | create l =>
    show Inv (criar_livro db l).2
    rw [criar_state]
    exact Inv_insertRow db hdb _ _ _ _
  | update i u =>
    show Inv (atualizar_livro db i u).2
    cases h : findRow db i with
    | none =>
      rw [atualizar_of_notFound db i u h]
      exact hdb
    | some r =>
      by_cases hf : hasFields u = true
      · rw [atualizar_of_found db i u r h hf]
        intro x hx
        simp only at hx
        rcases List.mem_map.mp hx with ⟨y, hy, hxy⟩
        have hid : x.id = y.id := by rw [← hxy, updRow_id]
        rw [hid]
        exact hdb y hy
      · rw [atualizar_of_empty db i u r h (by simpa using hf)]
        exact hdb
  | delete i =>
    show Inv (excluir_livro db i).2
    cases h : findRow db i with
    | none =>
      rw [excluir_of_notFound db i h]
      exact hdb
    | some r =>
      rw [excluir_of_found db i r h]
      intro x hx
      exact hdb x (List.mem_filter.mp hx).1

theorem step_seq_le (db : DB) (op : Op) : db.seq ≤ (step db op).seq := by
  cases op with
  | create l =>
    show db.seq ≤ (criar_livro db l).2.seq
    rw [criar_seq]
    omega
  | update i u =>
    show db.seq ≤ (atualizar_livro db i u).2.seq
    rw [atualizar_seq]
  | delete i =>
    show db.seq ≤ (excluir_livro db i).2.seq
    rw [excluir_seq]

theorem run_seq_le (ops : List Op) : ∀ db : DB, db.seq ≤ (run db ops).seq := by
  induction ops with
  | nil => exact fun db => le_refl _
  | cons op ops ih =>
    intro db
    exact le_trans (step_seq_le db op) (ih (step db op))

theorem Inv_run (ops : List Op) : ∀ db : DB, Inv db → Inv (run db ops) := by
  induction ops with
  | nil => exact fun db h => h
  | cons op ops ih =>
    intro db h
    exact ih (step db op) (Inv_step db op h)

theorem run_append (db : DB) (l1 l2 : List Op) :
    run db (l1 ++ l2) = run (run db l1) l2 :=
  List.foldl_append step db l1 l2

theorem mem_insertById (r x : Row) (l : List Row) :
    x ∈ insertById r l ↔ x = r ∨ x ∈ l := by
  induction l with
  | nil => simp [insertById]
  | cons y ys ih =>
    unfold insertById
    by_cases h : r.id ≤ y.id
    · simp [h]
    · simp only [h, if_false, List.mem_cons, ih]
      tauto

theorem mem_sortById (x : Row) (l : List Row) : x ∈ sortById l ↔ x ∈ l := by
  induction l with
  | nil => simp [sortById]
  | cons y ys ih =>
    unfold sortById at ih ⊢
    rw [List.foldr_cons, mem_insertById, ih]
    simp

end ApiFast

namespace DatabasePy

/-- A dynamically typed sqlite value, as stored by the Database class (sqlite
columns accept any value the caller binds). -/
inductive SqlVal where
  | int : Int → SqlVal
  | text : String → SqlVal
  | null : SqlVal
deriving DecidableEq

/-- One row of database.py's `livros` table: the four data columns hold whatever
sqlite value was bound for them, `id` is the AUTOINCREMENT key. -/
structure DRow where
  id : Nat
  titulo : SqlVal
  autor : SqlVal
  ano_publicacao : SqlVal
  disponivel : SqlVal
deriving DecidableEq

/-- The state behind one `Database` instance: rows in rowid order and the
AUTOINCREMENT sequence counter. -/
structure DbState where
  rows : List DRow
  seq : Nat
deriving DecidableEq

/-- The allow-list checked by `update_livro`
(`['titulo', 'autor', 'ano_publicacao', 'disponivel']`). -/
def allowedKeys : List String :=
  ["titulo", "autor", "ano_publicacao", "disponivel"]

/-- Effect of one `key = ?` fragment of the generated UPDATE on a row: the
named column takes the bound value. -/
def setCol (r : DRow) (key : String) (v : SqlVal) : DRow :=
  if key == "titulo" then { r with titulo := v }
  else if key == "autor" then { r with autor := v }
  else if key == "ano_publicacao" then { r with ano_publicacao := v }
  else if key == "disponivel" then { r with disponivel := v }
  else r

/-- Read a data column of a row by name (`.null` for a name that is not a
column; only used at allow-listed names). -/
def getCol (r : DRow) (key : String) : SqlVal :=
  if key == "titulo" then r.titulo
  else if key == "autor" then r.autor
  else if key == "ano_publicacao" then r.ano_publicacao
  else if key == "disponivel" then r.disponivel
  else .null

/-- Effect of the whole `SET f1 = ?, f2 = ?, ...` list on one matching row, in
the order the fragments were generated. -/
def applyFields (r : DRow) (fields : List (String × SqlVal)) : DRow :=
  fields.foldl (fun a kv => setCol a kv.1 kv.2) r

/-- `update_livro` (database.py lines 172-194): `kwargs` is the keyword-argument
dict in insertion order (keys distinct). Empty kwargs returns False; keys
outside the allow-list are dropped; an empty filtered list returns False with
no write; otherwise the UPDATE runs on the rows matching the id and the
returned boolean is `cursor.rowcount > 0`, the rowcount being the number of
rows matched by `WHERE id = ?`. -/
def update_livro (st : DbState) (livro_id : Nat)
    (kwargs : List (String × SqlVal)) : Bool × DbState :=
  if kwargs.isEmpty then (false, st)
  else
    let fields := kwargs.filter (fun kv => allowedKeys.contains kv.1)
    if fields.isEmpty then (false, st)
    else
      (decide (0 < st.rows.countP (fun r => r.id == livro_id)),
       { st with rows := st.rows.map (fun r =>
           if r.id == livro_id then applyFields r fields else r) })

theorem setCol_id (r : DRow) (k : String) (v : SqlVal) :
    (setCol r k v).id = r.id := by
  unfold setCol
  split_ifs <;> rfl

theorem getCol_setCol_same (r : DRow) (k : String) (v : SqlVal)
    (hk : k ∈ allowedKeys) : getCol (setCol r k v) k = v := by
  simp only [allowedKeys, List.mem_cons, List.not_mem_nil, or_false] at hk
  rcases hk with h | h | h | h <;> subst h <;> rfl

theorem getCol_setCol_ne (r : DRow) (k k2 : String) (v : SqlVal)
    (hk : k ∈ allowedKeys) (hk2 : k2 ∈ allowedKeys) (hne : k2 ≠ k) :
    getCol (setCol r k v) k2 = getCol r k2 := by
  simp only [allowedKeys, List.mem_cons, List.not_mem_nil, or_false] at hk hk2
  rcases hk with h | h | h | h <;> rcases hk2 with h2 | h2 | h2 | h2 <;>
    subst h <;> subst h2 <;> first
      | (exact absurd rfl hne)
      | rfl

theorem applyFields_cons (r : DRow) (kv : String × SqlVal)
    (fs : List (String × SqlVal)) :
    applyFields r (kv :: fs) = applyFields (setCol r kv.1 kv.2) fs := rfl

theorem applyFields_id (fs : List (String × SqlVal)) :
    ∀ r : DRow, (applyFields r fs).id = r.id := by
  induction fs with
  | nil => exact fun r => rfl
  | cons kv fs ih =>
    intro r
    rw [applyFields_cons, ih, setCol_id]

theorem applyFields_not_mem (k : String) (hk : k ∈ allowedKeys)
    (fs : List (String × SqlVal)) (hall : ∀ kv ∈ fs, kv.1 ∈ allowedKeys)
    (hnot : ∀ v, (k, v) ∉ fs) :
    ∀ r : DRow, getCol (applyFields r fs) k = getCol r k := by
  induction fs with
  | nil => exact fun r => rfl
  | cons kv fs ih =>
    intro r
    have hne : k ≠ kv.1 := by
      intro h
      exact hnot kv.2 (by rw [h]; exact List.mem_cons_self kv fs)
    rw [applyFields_cons,
      ih (fun x hx => hall x (List.mem_cons_of_mem kv hx))
        (fun v hv => hnot v (List.mem_cons_of_mem kv hv)),
      getCol_setCol_ne r kv.1 k kv.2 (hall kv (List.mem_cons_self kv fs)) hk
        hne]

theorem applyFields_mem (k : String) (v : SqlVal) (hk : k ∈ allowedKeys)
    (fs : List (String × SqlVal)) (hall : ∀ kv ∈ fs, kv.1 ∈ allowedKeys)
    (hnd : fs.Pairwise (fun a b => a.1 ≠ b.1)) (hmem : (k, v) ∈ fs) :
    ∀ r : DRow, getCol (applyFields r fs) k = v := by
  induction fs with
  | nil => exact absurd hmem (List.not_mem_nil _)
  | cons kv fs ih =>
    intro r
    rcases List.pairwise_cons.mp hnd with ⟨hhead, htail⟩
    rcases List.mem_cons.mp hmem with h | h
    · have hkv : kv = (k, v) := h.symm
      subst hkv
      rw [applyFields_cons,
        applyFields_not_mem k hk fs
          (fun x hx => hall x (List.mem_cons_of_mem _ hx))
          (fun w hw => (hhead (k, w) hw) rfl)]
      exact getCol_setCol_same r k v hk
    · exact ih (fun x hx => hall x (List.mem_cons_of_mem kv hx)) htail h
        (setCol r kv.1 kv.2)

theorem update_livro_of_empty (st : DbState) (i : Nat)
    (kwargs : List (String × SqlVal))
    (hF : kwargs.filter (fun kv => allowedKeys.contains kv.1) = []) :
    update_livro st i kwargs = (false, st) := by
  unfold update_livro
  split
  · rfl
  · dsimp only
    rw [hF]
    rfl

theorem update_livro_char (st : DbState) (i : Nat)
    (kwargs : List (String × SqlVal))
    (hF : kwargs.filter (fun kv => allowedKeys.contains kv.1) ≠ []) :
    update_livro st i kwargs =
      (decide (0 < st.rows.countP (fun r => r.id == i)),
       { st with rows := st.rows.map (fun r =>
           if r.id == i then
             applyFields r (kwargs.filter (fun kv => allowedKeys.contains kv.1))
           else r) }) := by
  unfold update_livro
  split
  · rename_i h
    rw [List.isEmpty_iff] at h
    subst h
    exact absurd rfl hF
  · dsimp only
    split
    · rename_i h2
      rw [List.isEmpty_iff] at h2
      exact absurd h2 hF
    · rfl

theorem filter_idem {α : Type} (p : α → Bool) (l : List α) :
    (l.filter p).filter p = l.filter p :=
  List.filter_eq_self.mpr (fun _ ha => (List.mem_filter.mp ha).2)

end DatabasePy

open ApiFast DatabasePy

/-- A one-row table state used to instantiate the endpoint theorems. -/
def exRow : Row :=
  { id := 1, titulo := "1984", autor := "George Orwell",
    ano_publicacao := some 1949, disponivel := 1 }

/-- A database holding `exRow` with the sequence counter at 1. -/
def exDB : DB := { rows := [exRow], seq := 1 }

/-- A concrete creation request. -/
def exCreate : LivroCreate :=
  { titulo := "Dom Casmurro", autor := "Machado de Assis",
    ano_publicacao := some 1899, disponivel := true }

/-- A concrete update request supplying only the `disponivel` field. -/
def exUpdate : LivroUpdate :=
  { titulo := none, autor := none, ano_publicacao := none,
    disponivel := some true }

/-- The update request that supplies no field at all (the empty body `{}`). -/
def emptyUpdate : LivroUpdate :=
  { titulo := none, autor := none, ano_publicacao := none, disponivel := none }

/-- A one-row state for the Database-class theorems. -/
def exSt : DbState :=
  { rows := [{ id := 1, titulo := .text "A", autor := .text "B",
               ano_publicacao := .int 1950, disponivel := .int 1 }]
    seq := 1 }

/-- Keyword arguments with one allow-listed key and one unknown key. -/
def exKwargs : List (String × SqlVal) :=
  [("titulo", .text "X"), ("foo", .int 3)]

/-- Claim C1 is false as stated: at the empty table, id 1 has no record, and
`update_book(1, {})` returns NotFound, not BadRequest — the existence check
runs before the empty-fields check. -/
theorem claim_C1_cex :
    ¬ ((atualizar_livro criar_tabela 1 emptyUpdate).1
        = Outcome.badRequest) := by
  decide

/-- Claim C1 (amended): for an update body supplying no fields, update_book
yields BadRequest when a record with the id exists and NotFound when it does
not (existence is checked first); the table is unchanged either way. -/
theorem claim_C1 (db : DB) (i : Nat) (u : LivroUpdate)
    (hu : hasFields u = false) :
    (atualizar_livro db i u).1 =
      (if (findRow db i).isSome then Outcome.badRequest else Outcome.notFound)
    ∧ (atualizar_livro db i u).2 = db := by
  cases h : findRow db i with
  | none =>
    rw [atualizar_of_notFound db i u h]
    simp [h]
  | some r =>
    rw [atualizar_of_empty db i u r h hu]
    simp [h]

/-- Witness for C1: the empty update body has no fields, and on a table where
id 1 exists the call returns BadRequest with the table unchanged. -/
theorem claim_C1_witness :
    hasFields emptyUpdate = false
    ∧ ((atualizar_livro exDB 1 emptyUpdate).1 =
        (if (findRow exDB 1).isSome then Outcome.badRequest
         else Outcome.notFound)
       ∧ (atualizar_livro exDB 1 emptyUpdate).2 = exDB) :=
  ⟨rfl, claim_C1 exDB 1 emptyUpdate rfl⟩

/-- Claim C5: on an identifier with no row, get_book, update_book (any body)
and delete_book all return NotFound — never BadRequest and never a crash. -/
theorem claim_C5 (db : DB) (i : Nat) (u : LivroUpdate)
    (h : findRow db i = none) :
    obter_livro db i = Outcome.notFound
    ∧ (atualizar_livro db i u).1 = Outcome.notFound
    ∧ (excluir_livro db i).1 = Outcome.notFound := by
  refine ⟨?_, ?_, ?_⟩
  · unfold obter_livro
    rw [h]
  · rw [atualizar_of_notFound db i u h]
  · rw [excluir_of_notFound db i h]

/-- Witness for C5: id 2 has no row in the one-row table `exDB`. -/
theorem claim_C5_witness :
    findRow exDB 2 = none
    ∧ (obter_livro exDB 2 = Outcome.notFound
       ∧ (atualizar_livro exDB 2 exUpdate).1 = Outcome.notFound
       ∧ (excluir_livro exDB 2).1 = Outcome.notFound) :=
  ⟨rfl, claim_C5 exDB 2 exUpdate rfl⟩

/-- Claim C6: deleting an existing id succeeds (204), a get on that id then
returns NotFound, and a second delete of the same id returns NotFound. -/
theorem claim_C6 (db : DB) (i : Nat) (r : Row) (hr : findRow db i = some r) :
    (excluir_livro db i).1 = Outcome.ok ()
    ∧ obter_livro (excluir_livro db i).2 i = Outcome.notFound
    ∧ (excluir_livro (excluir_livro db i).2 i).1 = Outcome.notFound := by
  have h2 : (excluir_livro db i).2
      = { db with rows := db.rows.filter (fun x => !(x.id == i)) } := by
    rw [excluir_of_found db i r hr]
  refine ⟨?_, ?_, ?_⟩
  · rw [excluir_of_found db i r hr]
  · rw [h2]
    unfold obter_livro
    rw [findRow_filter_self]
  · rw [h2, excluir_of_notFound _ i (findRow_filter_self db i)]

/-- Witness for C6: id 1 exists in `exDB`; delete, get, delete behave as
Success, NotFound, NotFound. -/
theorem claim_C6_witness :
    findRow exDB 1 = some exRow
    ∧ ((excluir_livro exDB 1).1 = Outcome.ok ()
       ∧ obter_livro (excluir_livro exDB 1).2 1 = Outcome.notFound
       ∧ (excluir_livro (excluir_livro exDB 1).2 1).1 = Outcome.notFound) :=
  ⟨rfl, claim_C6 exDB 1 exRow rfl⟩

/-- Claim C8 is false as stated: the status endpoint never reports an
unavailable count equal to the available count — already at the empty table it
produces no successful response at all (the unavailable-count row is read with
a key that names no column, which raises). -/
theorem claim_C8_cex :
    ¬ ∃ s : StatusInfo,
        status_biblioteca criar_tabela = Outcome.ok s
        ∧ s.livros_indisponiveis = s.livros_disponiveis := by
  rintro ⟨s, hs, _⟩
  have hc : status_biblioteca criar_tabela = Outcome.crash := rfl
  rw [hc] at hs
  exact Outcome.noConfusion hs

/-- Claim C8 (amended): the status endpoint's unavailable count is indeed
broken, but not by reusing the available figure: line 265 reads key
"disponiveis" from the row returned by the unavailable-count query, whose only
column is aliased "indisponiveis", so the lookup raises and the endpoint
crashes for every table state; no count is ever reported. -/
theorem claim_C8 (db : DB) : status_biblioteca db = Outcome.crash := rfl

/-- Claim C10: update_book and delete_book on id `i` leave the row looked up
under any other id `j` exactly as it was. -/
theorem claim_C10 (db : DB) (i j : Nat) (u : LivroUpdate) (hij : j ≠ i) :
    findRow (atualizar_livro db i u).2 j = findRow db j
    ∧ findRow (excluir_livro db i).2 j = findRow db j := by
  constructor
  · cases h : findRow db i with
    | none => rw [atualizar_of_notFound db i u h]
    | some r =>
      by_cases hf : hasFields u = true
      · rw [atualizar_of_found db i u r h hf]
        exact findRow_atualizar_frame db i j u hij
      · rw [atualizar_of_empty db i u r h (by simpa using hf)]
  · cases h : findRow db i with
    | none => rw [excluir_of_notFound db i h]
    | some r =>
      rw [excluir_of_found db i r h]
      exact findRow_filter_frame db i j hij

/-- Witness for C10: updating and deleting id 1 leave the lookup of id 2
unchanged in `exDB`. -/
theorem claim_C10_witness :
    (2 : Nat) ≠ 1
    ∧ (findRow (atualizar_livro exDB 1 exUpdate).2 2 = findRow exDB 2
       ∧ findRow (excluir_livro exDB 1).2 2 = findRow exDB 2) :=
  ⟨by decide, claim_C10 exDB 1 2 exUpdate (by decide)⟩

/-- Claim C2: updating an existing id with a body that supplies at least one
field returns the stored record, which after the call is `applyUpdate u r`:
its id is unchanged, every omitted field keeps its prior value, and every
supplied field takes the supplied value. -/
theorem claim_C2 (db : DB) (i : Nat) (u : LivroUpdate) (r : Row)
    (hr : findRow db i = some r) (hf : hasFields u = true) :
    (atualizar_livro db i u).1 = Outcome.ok (livro_from_row (applyUpdate u r))
    ∧ findRow (atualizar_livro db i u).2 i = some (applyUpdate u r)
    ∧ (applyUpdate u r).id = r.id
    ∧ (u.titulo = none → (applyUpdate u r).titulo = r.titulo)
    ∧ (u.autor = none → (applyUpdate u r).autor = r.autor)
    ∧ (u.ano_publicacao = none →
        (applyUpdate u r).ano_publicacao = r.ano_publicacao)
    ∧ (u.disponivel = none → (applyUpdate u r).disponivel = r.disponivel)
    ∧ (∀ t, u.titulo = some t → (applyUpdate u r).titulo = t)
    ∧ (∀ a, u.autor = some a → (applyUpdate u r).autor = a)
    ∧ (∀ n, u.ano_publicacao = some n →
        (applyUpdate u r).ano_publicacao = some n)
    ∧ (∀ d, u.disponivel = some d →
        (applyUpdate u r).disponivel = if d then 1 else 0) := by
  have hfound := atualizar_of_found db i u r hr hf
  refine ⟨by rw [hfound], ?_, applyUpdate_id u r,
    fun h => applyUpdate_titulo_none u r h,
    fun h => applyUpdate_autor_none u r h,
    fun h => applyUpdate_ano_none u r h,
    fun h => applyUpdate_disponivel_none u r h,
    fun t h => applyUpdate_titulo_some u r t h,
    fun a h => applyUpdate_autor_some u r a h,
    fun n h => applyUpdate_ano_some u r n h,
    fun d h => applyUpdate_disponivel_some u r d h⟩
  rw [hfound]
  exact findRow_atualizar_map db i u r hr

/-- Witness for C2: updating id 1 of `exDB` with only `disponivel := true`
succeeds and the stored record is `applyUpdate exUpdate exRow`. -/
theorem claim_C2_witness :
    findRow exDB 1 = some exRow
    ∧ hasFields exUpdate = true
    ∧ ((atualizar_livro exDB 1 exUpdate).1
        = Outcome.ok (livro_from_row (applyUpdate exUpdate exRow))
       ∧ findRow (atualizar_livro exDB 1 exUpdate).2 1
          = some (applyUpdate exUpdate exRow)) :=
  ⟨rfl, rfl,
    (claim_C2 exDB 1 exUpdate exRow rfl rfl).1,
    (claim_C2 exDB 1 exUpdate exRow rfl rfl).2.1⟩

theorem Inv_exDB : Inv exDB := by
  intro r hr
  simp only [exDB, List.mem_singleton] at hr
  subst hr
  decide

/-- Claim C4: on any reachable table, create_book succeeds and get_book on the
returned id yields exactly the created input plus the assigned id. -/
theorem claim_C4 (db : DB) (l : LivroCreate) (hdb : Inv db) :
    ∃ liv : Livro,
      (criar_livro db l).1 = Outcome.ok liv
      ∧ obter_livro (criar_livro db l).2 liv.id = Outcome.ok liv
      ∧ liv.id = db.seq + 1
      ∧ liv.titulo = l.titulo ∧ liv.autor = l.autor
      ∧ liv.ano_publicacao = l.ano_publicacao
      ∧ liv.disponivel = l.disponivel := by
  have h := criar_of_inv db l hdb
  refine ⟨{ id := db.seq + 1, titulo := l.titulo, autor := l.autor,
            ano_publicacao := l.ano_publicacao, disponivel := l.disponivel },
    by rw [h], ?_, rfl, rfl, rfl, rfl, rfl⟩
  rw [h]
  unfold obter_livro
  rw [findRow_insert_new db hdb]
  cases hd : l.disponivel <;> simp [livro_from_row, hd]

/-- Witness for C4: `exDB` satisfies the reachability invariant and creating
`exCreate` then reading id 2 returns the created record. -/
theorem claim_C4_witness :
    Inv exDB
    ∧ ∃ liv : Livro,
        (criar_livro exDB exCreate).1 = Outcome.ok liv
        ∧ obter_livro (criar_livro exDB exCreate).2 liv.id = Outcome.ok liv
        ∧ liv.id = exDB.seq + 1
        ∧ liv.titulo = exCreate.titulo ∧ liv.autor = exCreate.autor
        ∧ liv.ano_publicacao = exCreate.ano_publicacao
        ∧ liv.disponivel = exCreate.disponivel :=
  ⟨Inv_exDB, claim_C4 exDB exCreate Inv_exDB⟩

/-- Claim C9: every record the endpoints return is `livro_from_row` of a table
row, and `livro_from_row` carries `disponivel` as the boolean coercion
(`bool(...)`) of the stored integer column. -/
theorem claim_C9 (db : DB) (i : Nat) (l : LivroCreate) (u : LivroUpdate) :
    (∀ liv ∈ listar_livros db, ∃ r, r ∈ db.rows ∧ liv = livro_from_row r)
    ∧ (∀ liv, obter_livro db i = Outcome.ok liv →
        ∃ r, findRow db i = some r ∧ liv = livro_from_row r)
    ∧ (∀ liv, (criar_livro db l).1 = Outcome.ok liv →
        ∃ r, r ∈ (criar_livro db l).2.rows ∧ liv = livro_from_row r)
    ∧ (∀ liv, (atualizar_livro db i u).1 = Outcome.ok liv →
        ∃ r, r ∈ (atualizar_livro db i u).2.rows ∧ liv = livro_from_row r)
    ∧ (∀ row : Row,
        (livro_from_row row).disponivel = (row.disponivel != 0)) := by
  refine ⟨?_, ?_, ?_, ?_, fun row => rfl⟩
  · intro liv hl
    unfold listar_livros at hl
    rcases List.mem_map.mp hl with ⟨r, hr, hlr⟩
    exact ⟨r, (mem_sortById r db.rows).mp hr, hlr.symm⟩
  · intro liv hl
    unfold obter_livro at hl
    cases h : findRow db i with
    | none =>
      rw [h] at hl
      exact Outcome.noConfusion hl
    | some r =>
      rw [h] at hl
      exact ⟨r, rfl, (Outcome.ok.inj hl).symm⟩
  · intro liv hl
    unfold criar_livro at hl ⊢
    dsimp only at hl ⊢
    cases h2 : findRow (insertRow db l.titulo l.autor l.ano_publicacao
        (if l.disponivel then 1 else 0)) (db.seq + 1) with
    | none =>
      rw [h2] at hl
      exact Outcome.noConfusion hl
    | some row =>
      rw [h2] at hl
      have hl2 : Outcome.ok (livro_from_row row) = Outcome.ok liv := hl
      refine ⟨row, ?_, (Outcome.ok.inj hl2).symm⟩
      unfold findRow at h2
      exact List.mem_of_find?_eq_some h2
  · intro liv hl
    cases h : findRow db i with
    | none =>
      rw [atualizar_of_notFound db i u h] at hl
      exact Outcome.noConfusion hl
    | some r =>
      by_cases hf : hasFields u = true
      · have hfound := atualizar_of_found db i u r h hf
        rw [hfound] at hl ⊢
        refine ⟨applyUpdate u r, ?_, (Outcome.ok.inj hl).symm⟩
        have hrmem : r ∈ db.rows := by
          unfold findRow at h
          exact List.mem_of_find?_eq_some h
        have hpr : (r.id == i) = true := by
          unfold findRow at h
          exact List.find?_some (p := fun x : Row => x.id == i) h
        have hmem := List.mem_map_of_mem
          (fun x => if x.id == i then applyUpdate u x else x) hrmem
        have hmem2 : (if (r.id == i) = true then applyUpdate u r else r)
            ∈ List.map (fun x => if x.id == i then applyUpdate u x else x)
                db.rows := hmem
        rw [if_pos hpr] at hmem2
        exact hmem2
      · rw [atualizar_of_empty db i u r h (by simpa using hf)] at hl
        exact Outcome.noConfusion hl

/-- Witness for C9 at a concrete table, id, creation and update request. -/
theorem claim_C9_witness :
    (∀ liv ∈ listar_livros exDB, ∃ r, r ∈ exDB.rows ∧ liv = livro_from_row r)
    ∧ (∀ liv, obter_livro exDB 1 = Outcome.ok liv →
        ∃ r, findRow exDB 1 = some r ∧ liv = livro_from_row r)
    ∧ (∀ liv, (criar_livro exDB exCreate).1 = Outcome.ok liv →
        ∃ r, r ∈ (criar_livro exDB exCreate).2.rows ∧ liv = livro_from_row r)
    ∧ (∀ liv, (atualizar_livro exDB 1 exUpdate).1 = Outcome.ok liv →
        ∃ r, r ∈ (atualizar_livro exDB 1 exUpdate).2.rows
          ∧ liv = livro_from_row r)
    ∧ (∀ row : Row,
        (livro_from_row row).disponivel = (row.disponivel != 0)) :=
  claim_C9 exDB 1 exCreate exUpdate

/-- Claim C7: after any operation sequence from the fresh table, a create
assigns the id `seq + 1` to exactly one row; that id is strictly greater than
the id of every current row and of every row present at any earlier point of
the sequence (so ids increase across successive creates and a deleted row's id
is never handed out again), and the sequence counter never decreases. -/
theorem claim_C7 (ops pre suf : List Op) (l : LivroCreate)
    (hpre : ops = pre ++ suf) :
    ((criar_livro (run criar_tabela ops) l).2.rows.countP
        (fun r => r.id == (run criar_tabela ops).seq + 1)) = 1
    ∧ (∀ r ∈ (run criar_tabela ops).rows,
        r.id < (run criar_tabela ops).seq + 1)
    ∧ (run criar_tabela pre).seq ≤ (run criar_tabela ops).seq
    ∧ (∀ r ∈ (run criar_tabela pre).rows,
        r.id < (run criar_tabela ops).seq + 1) := by
  have hinv : Inv (run criar_tabela ops) :=
    Inv_run ops criar_tabela Inv_criar_tabela
  have hinvp : Inv (run criar_tabela pre) :=
    Inv_run pre criar_tabela Inv_criar_tabela
  have hseq : (run criar_tabela pre).seq ≤ (run criar_tabela ops).seq := by
    rw [hpre, run_append]
    exact run_seq_le suf (run criar_tabela pre)
  refine ⟨?_, ?_, hseq, ?_⟩
  · rw [criar_state]
    simp only [insertRow]
    rw [List.countP_append]
    have h0 : (run criar_tabela ops).rows.countP
        (fun r => r.id == (run criar_tabela ops).seq + 1) = 0 := by
      rw [List.countP_eq_zero]
      intro a ha
      have := hinv a ha
      simp only [beq_iff_eq]
      omega
    rw [h0]
    simp [List.countP_cons]
  · intro r hr
    have := hinv r hr
    omega
  · intro r hr
    have := hinvp r hr
    have h2 := hseq
    omega

/-- Witness for C7: the sequence "create then delete the created row" splits as
prefix [create] plus [delete]; a fresh create then assigns id 2 exactly once,
and both rows ever present (ids 1 and, none, after deletion) are below 2. -/
theorem claim_C7_witness :
    ([Op.create exCreate, Op.delete 1]
      = [Op.create exCreate] ++ [Op.delete 1])
    ∧ (((criar_livro (run criar_tabela [Op.create exCreate, Op.delete 1])
          exCreate).2.rows.countP
            (fun r => r.id ==
              (run criar_tabela [Op.create exCreate, Op.delete 1]).seq + 1))
          = 1
       ∧ (∀ r ∈ (run criar_tabela [Op.create exCreate, Op.delete 1]).rows,
            r.id <
              (run criar_tabela [Op.create exCreate, Op.delete 1]).seq + 1)
       ∧ (run criar_tabela [Op.create exCreate]).seq
            ≤ (run criar_tabela [Op.create exCreate, Op.delete 1]).seq
       ∧ (∀ r ∈ (run criar_tabela [Op.create exCreate]).rows,
            r.id <
              (run criar_tabela [Op.create exCreate, Op.delete 1]).seq + 1)) :=
  ⟨rfl, claim_C7 [Op.create exCreate, Op.delete 1] [Op.create exCreate]
    [Op.delete 1] exCreate rfl⟩

/-- Claim C3: `update_livro` ignores keys outside the allow-list without error
(the call equals the call on the pre-filtered kwargs); when nothing survives
the filter it performs no write and returns False; otherwise it writes exactly
the supplied columns of the rows matching the id, leaves every other row and
every unsupplied column untouched, and returns True exactly when a row with
that id exists. -/
theorem claim_C3 (st : DbState) (i : Nat) (kwargs : List (String × SqlVal))
    (hnd : kwargs.Pairwise (fun a b => a.1 ≠ b.1)) :
    (update_livro st i kwargs
      = update_livro st i
          (kwargs.filter (fun kv => allowedKeys.contains kv.1)))
    ∧ (kwargs.filter (fun kv => allowedKeys.contains kv.1) = [] →
        update_livro st i kwargs = (false, st))
    ∧ (kwargs.filter (fun kv => allowedKeys.contains kv.1) ≠ [] →
        ((update_livro st i kwargs).1 = true ↔ ∃ r ∈ st.rows, r.id = i)
        ∧ (∀ (j : Nat) (r : DRow), st.rows[j]? = some r →
            ∃ r2, (update_livro st i kwargs).2.rows[j]? = some r2
              ∧ r2.id = r.id
              ∧ (r.id ≠ i → r2 = r)
              ∧ (r.id = i →
                  (∀ kv ∈ kwargs, kv.1 ∈ allowedKeys →
                    getCol r2 kv.1 = kv.2)
                  ∧ (∀ k ∈ allowedKeys, (∀ v, (k, v) ∉ kwargs) →
                      getCol r2 k = getCol r k)))) := by
  by_cases hF : kwargs.filter (fun kv => allowedKeys.contains kv.1) = []
  · refine ⟨?_, fun _ => update_livro_of_empty st i kwargs hF,
      fun h => absurd hF h⟩
    rw [update_livro_of_empty st i kwargs hF, hF]
    rfl
  · have hchar := update_livro_char st i kwargs hF
    have hFF : (kwargs.filter
          (fun kv => allowedKeys.contains kv.1)).filter
            (fun kv => allowedKeys.contains kv.1)
        = kwargs.filter (fun kv => allowedKeys.contains kv.1) :=
      filter_idem _ _
    have hallF : ∀ kv ∈ kwargs.filter (fun kv => allowedKeys.contains kv.1),
        kv.1 ∈ allowedKeys := by
      intro kv hkv
      have h2 := (List.mem_filter.mp hkv).2
      exact List.elem_iff.mp h2
    have hndF := hnd.filter (fun kv => allowedKeys.contains kv.1)
    refine ⟨?_, fun h => absurd h hF, fun _ => ⟨?_, ?_⟩⟩
    · rw [hchar, update_livro_char st i _ (by rw [hFF]; exact hF), hFF]
    · rw [hchar]
      simp only [decide_eq_true_eq, List.countP_pos_iff, beq_iff_eq]
    · intro j r hjr
      refine ⟨if (r.id == i) = true then
          applyFields r (kwargs.filter (fun kv => allowedKeys.contains kv.1))
        else r, ?_, ?_, ?_, ?_⟩
      · rw [hchar]
        dsimp only
        simp [List.getElem?_map, hjr]
      · by_cases hri : (r.id == i) = true
        · rw [if_pos hri]
          exact applyFields_id _ r
        · rw [if_neg hri]
      · intro hne
        rw [if_neg (by simp [hne])]
      · intro heq
        have hri : (r.id == i) = true := by simp [heq]
        rw [if_pos hri]
        constructor
        · rintro ⟨k, v⟩ hkv hkey
          have hmemF : (k, v) ∈ kwargs.filter
              (fun kv => allowedKeys.contains kv.1) :=
            List.mem_filter.mpr ⟨hkv, List.elem_iff.mpr hkey⟩
          exact applyFields_mem k v hkey _ hallF hndF hmemF r
        · intro k hk hnot
          exact applyFields_not_mem k hk _ hallF
            (fun v hv => hnot v (List.mem_filter.mp hv).1) r

/-- Witness for C3: distinct-key kwargs with one allow-listed and one unknown
key; the update equals the update on the filtered kwargs. -/
theorem claim_C3_witness :
    (exKwargs.Pairwise (fun a b => a.1 ≠ b.1))
    ∧ update_livro exSt 1 exKwargs
        = update_livro exSt 1
            (exKwargs.filter (fun kv => allowedKeys.contains kv.1)) :=
  ⟨by decide, (claim_C3 exSt 1 exKwargs (by decide)).1⟩
